import Mathlib

set_option linter.unusedVariables false

/-! Shallow embedding of the dot-trove program (src/main.rs).

The data model (Entry, TroveConfig, Trove), the path-normalization
helpers (get_true_path, get_relative_path), the entry-store lookups,
registry persistence (save, load, json_from_file) and the command
handlers (add/remove/deploy/pack) are translated from the source.
Filesystem side effects are recorded as an ordered trace of `FsOp`
values; fallible external calls (path canonicalization, rename,
symlink creation/removal, file writes) are driven by an `Env` of
oracles, so that theorems can quantify over every pattern of partial
filesystem failure. -/

/-- One tracked filesystem object (struct Entry, main.rs lines 14-19). -/
structure Entry where
  name : String
  host_path : String
  categories : List String
  deriving DecidableEq

/-- Registry-level settings (struct TroveConfig, main.rs lines 21-25);
both paths are stored in portable form. -/
structure TroveConfig where
  path : String
  store_path : String
  deriving DecidableEq

/-- The aggregate root (struct Trove, main.rs lines 27-31).  The
HashSet of entries is modelled as a list with set-like insert and
remove operations. -/
structure Trove where
  config : TroveConfig
  entries : List Entry
  deriving DecidableEq

/-- JSON values, as far as the Trove data model needs them (the image
of serde_json serialization of Trove). -/
inductive Json where
  | str (s : String)
  | arr (items : List Json)
  | obj (fields : List (String × Json))

/-- Contents of a file on disk: either text that parses as JSON
(represented by its parse) or text that does not. -/
inductive RawFile where
  | json (j : Json)
  | malformed (s : String)

/-- A filesystem side effect attempted by a command, in program order:
std::fs::rename, symlink::symlink_auto, symlink::remove_symlink_auto,
or a whole-file write (json_to_file). -/
inductive FsOp where
  | rename (src dst : String)
  | symlinkCreate (target linkAt : String)
  | symlinkRemove (path : String)
  | write (path : String) (content : Json)

/-- Is this operation a registry-file write? -/
def FsOp.isWrite : FsOp → Bool
  | .write _ _ => true
  | _ => false

/-- Error outcomes; each constructor corresponds to one anyhow! site
(or one `?`-propagated external failure) in main.rs. -/
inductive TroveErr where
  | duplicateName
  | duplicatePath
  | pathNotFound
  | notInitialized
  | deserializeError
  | noEntryByName
  | noEntriesFound
  | onlyOneCriteria
  | needCriteria
  | entryNotFound
  | ioError
  | syncFailure
  deriving DecidableEq

/-- The literal error message of each anyhow! site in main.rs. -/
def TroveErr.message : TroveErr → String
  | .duplicateName => "Entry by that name already exists."
  | .duplicatePath => "Entry with that path already exists."
  | .pathNotFound => "Path does not exist or isn't a directory."
  | .notInitialized => "Could not find a valid .trove file. \r\n Run `trove init <path>` to begin."
  | .deserializeError => "serde_json::from_value failed"
  | .noEntryByName => "No entry found by that name."
  | .noEntriesFound => "No entries found."
  | .onlyOneCriteria => "Please specify only one criteria."
  | .needCriteria => "Need criteria to remove by."
  | .entryNotFound => "Entry doesn't exists."
  | .ioError => "io error"
  | .syncFailure => "filesystem side effect failed"

/-- Result of running code that may crash the process (a Rust panic
raised by .expect) instead of returning to its caller. -/
inductive PanicOr (α : Type) where
  | crashed (msg : String)
  | ret (val : α)

/-- External environment of one invocation: the home directory
(dirs_next::home_dir), path resolution (get_absolute_path, main.rs
lines 406-415: current-dir join plus std::fs::canonicalize, abstracted
as a partial function of the supplied path), and the success of each
attempted filesystem side effect. -/
structure Env where
  home : Option String
  canon : String → Option String
  ok : FsOp → Bool

/-- Outcome of one command on a &mut Trove: the (possibly mutated)
in-memory Trove, the filesystem operations attempted in order, and the
returned Result. -/
structure CmdOut where
  trove : Trove
  trace : List FsOp
  result : Except TroveErr Unit

/-! ### String machinery: Rust str::contains and str::replace -/

/-- Does pat occur as a contiguous substring (Rust str::contains with a
string pattern)? -/
def containsSub (pat : List Char) : List Char → Bool
  | [] => pat.isEmpty
  | c :: cs => pat.isPrefixOf (c :: cs) || containsSub pat cs

/-- Left-to-right non-overlapping replacement of every occurrence of
pat by rep (Rust str::replace), written with explicit fuel so that the
recursion is structural; fuel at least the input length always
suffices, because every step consumes at least one input character.
(For an empty pattern this returns the input unchanged; that case is
reachable only for an empty home-directory string and is irrelevant to
every claim.) -/
def replaceCharsFuel (pat rep : List Char) : Nat → List Char → List Char
  | _, [] => []
  | 0, l => l
  | n + 1, c :: cs =>
    if !pat.isEmpty && pat.isPrefixOf (c :: cs) then
      rep ++ replaceCharsFuel pat rep n ((c :: cs).drop pat.length)
    else
      c :: replaceCharsFuel pat rep n cs

/-- Rust str::replace on character lists. -/
def replaceChars (pat rep l : List Char) : List Char :=
  replaceCharsFuel pat rep l.length l

/-- Rust s.contains(pat) on strings. -/
def containsStr (s pat : String) : Bool :=
  containsSub pat.data s.data

/-- Rust s.replace(pat, rep) on strings. -/
def replaceStr (s pat rep : String) : String :=
  ⟨replaceChars pat.data rep.data s.data⟩

/-! ### Path normalization (main.rs lines 417-440) -/

/-- get_true_path (main.rs lines 417-426): converts portable paths with
a $HOME shorthand back to absolute paths. -/
def get_true_path (home : Option String) (path : String) : String :=
  match home with
  | some h => if containsStr path "$HOME" then replaceStr path "$HOME" h else path
  | none => path

/-- get_relative_path (main.rs lines 428-440): converts absolute paths
to portable paths with a $HOME shorthand. -/
def get_relative_path (home : Option String) (path : String) : String :=
  match home with
  | some clean => if containsStr path clean then replaceStr path clean "$HOME" else path
  | none => path

/-- PathBuf::push of a relative component onto a path. -/
def pathJoin (base child : String) : String :=
  base ++ "/" ++ child

/-! ### Entry Store lookups (main.rs lines 34-69) -/

/-- Trove::find_entry_by_name (main.rs lines 34-41). -/
def Trove.find_entry_by_name (t : Trove) (name : String) : Option Entry :=
  t.entries.find? (fun e => e.name == name)

/-- Trove::find_entry_by_path (main.rs lines 43-54): matches an entry
whose store-resident path (store_path ++ "/" ++ name, resolved by
get_true_path) equals the given path. -/
def Trove.find_entry_by_path (home : Option String) (t : Trove) (path : String) : Option Entry :=
  t.entries.find? (fun e => get_true_path home (t.config.store_path ++ "/" ++ e.name) == path)

/-- Trove::find_entry_by_category (main.rs lines 56-69): the matching
entries, or none when there are no matches. -/
def Trove.find_entry_by_category (t : Trove) (category : String) : Option (List Entry) :=
  let out := t.entries.filter (fun e => e.categories.contains category)
  if out.isEmpty then none else some out

/-- HashSet::insert on the modelled entry set: no-op when an equal
entry is already present. -/
def insertEntry (e : Entry) (l : List Entry) : List Entry :=
  if l.contains e then l else l ++ [e]

/-- HashSet::remove on the modelled entry set. -/
def removeEntryFromSet (e : Entry) (l : List Entry) : List Entry :=
  l.filter (fun x => !(x == e))

/-! ### serde_json serialization of the Trove aggregate -/

/-- Sequence a fallible element decoder over a list (serde decoding of
a JSON array). -/
def seqOption {α β : Type} (f : α → Option β) : List α → Option (List β)
  | [] => some []
  | a :: rest =>
    match f a, seqOption f rest with
    | some b, some bs => some (b :: bs)
    | _, _ => none

/-- Field lookup in a JSON object. -/
def jLookup (fields : List (String × Json)) (k : String) : Option Json :=
  (fields.find? (fun kv => kv.1 == k)).map (fun kv => kv.2)

/-- Decode a JSON string. -/
def jStr : Json → Option String
  | .str s => some s
  | _ => none

/-- serde serialization of an Entry. -/
def entryToJson (e : Entry) : Json :=
  .obj [("name", .str e.name), ("host_path", .str e.host_path),
        ("categories", .arr (e.categories.map Json.str))]

/-- serde deserialization of an Entry. -/
def entryFromJson (j : Json) : Option Entry :=
  match j with
  | .obj fields =>
    match jLookup fields "name", jLookup fields "host_path", jLookup fields "categories" with
    | some (.str n), some (.str hp), some (.arr cats) =>
      match seqOption jStr cats with
      | some cs => some ⟨n, hp, cs⟩
      | none => none
    | _, _, _ => none
  | _ => none

/-- serde serialization of a TroveConfig. -/
def configToJson (c : TroveConfig) : Json :=
  .obj [("path", .str c.path), ("store_path", .str c.store_path)]

/-- serde deserialization of a TroveConfig. -/
def configFromJson : Json → Option TroveConfig
  | .obj fields =>
    match jLookup fields "path", jLookup fields "store_path" with
    | some (.str p), some (.str sp) => some ⟨p, sp⟩
    | _, _ => none
  | _ => none

/-- serde serialization of a Trove (what Trove::save writes). -/
def troveToJson (t : Trove) : Json :=
  .obj [("config", configToJson t.config), ("entries", .arr (t.entries.map entryToJson))]

/-- serde deserialization of a Trove (what Trove::load parses). -/
def troveFromJson : Json → Option Trove
  | .obj fields =>
    match jLookup fields "config", jLookup fields "entries" with
    | some cj, some (.arr es) =>
      match configFromJson cj, seqOption entryFromJson es with
      | some c, some l => some ⟨c, l⟩
      | _, _ => none
    | _, _ => none
  | _ => none

/-! ### Registry persistence (main.rs lines 71-121, 392-404) -/

/-- The registry-file write performed by Trove::save: serialize the
whole Trove and overwrite the file at the resolved config.path. -/
def saveOp (env : Env) (t : Trove) : FsOp :=
  .write (get_true_path env.home t.config.path) (troveToJson t)

/-- Trove::save (main.rs lines 116-121): the attempted write and its
Result. -/
def Trove.save (env : Env) (t : Trove) : List FsOp × Except TroveErr Unit :=
  ([saveOp env t], if env.ok (saveOp env t) then Except.ok () else Except.error .syncFailure)

/-- json_from_file (main.rs lines 392-398): File::open propagates an
io error through ?, but a file whose contents fail to parse hits
serde_json::from_reader(file).expect("JSON was misformatted."), which
panics instead of returning. -/
def json_from_file (file : Option RawFile) : PanicOr (Except TroveErr Json) :=
  match file with
  | none => .ret (.error .ioError)
  | some (.json j) => .ret (.ok j)
  | some (.malformed _) => .crashed "JSON was misformatted."

/-- Trove::load (main.rs lines 71-90): resolve the registry path (the
argument if given, otherwise home/.trove, otherwise the empty path),
canonicalize it, read and parse the file, and deserialize the Trove;
an unlocatable registry yields the NotInitialized error. -/
def Trove.load (env : Env) (files : String → Option RawFile) (p : Option String) :
    PanicOr (Except TroveErr Trove) :=
  let conf : String :=
    match p with
    | some path => path
    | none =>
      match env.home with
      | some h => pathJoin h ".trove"
      | none => ""
  match env.canon conf with
  | some path =>
    match json_from_file (files path) with
    | .crashed m => .crashed m
    | .ret (.error e) => .ret (.error e)
    | .ret (.ok j) =>
      match troveFromJson j with
      | some trove => .ret (.ok trove)
      | none => .ret (.error .deserializeError)
  | none => .ret (.error .notInitialized)

/-- The effect of one filesystem operation on file contents: a write
stores well-formed JSON at its path; the other operations do not
change any file's parsed contents. -/
def fsAfterWrite (files : String → Option RawFile) (op : FsOp) : String → Option RawFile :=
  match op with
  | .write p j => fun q => if q = p then some (.json j) else files q
  | _ => files

/-- Apply a trace of operations to the file contents in order. -/
def applyWrites (files : String → Option RawFile) : List FsOp → (String → Option RawFile)
  | [] => files
  | op :: rest => applyWrites (fsAfterWrite files op) rest

/-! ### Command handlers (main.rs lines 142-317) -/

/-- The category-string parsing in add_entry (main.rs lines 143-154):
split on commas and drop empty segments. -/
def splitCategories : Option String → List String
  | some s => (s.splitOn ",").filter (fun x => !(x == ""))
  | none => []

/-- Trove::add_entry (main.rs lines 142-183): parse categories, reject
a duplicate name then a duplicate (store-resident) path, resolve the
host path, encode it in portable form, insert the new Entry, and save. -/
def Trove.add_entry (env : Env) (t : Trove) (path : String) (name : String)
    (categories : Option String) : CmdOut :=
  let cats := splitCategories categories
  match t.find_entry_by_name name with
  | some _ => ⟨t, [], .error .duplicateName⟩
  | none =>
    match Trove.find_entry_by_path env.home t path with
    | some _ => ⟨t, [], .error .duplicatePath⟩
    | none =>
      match env.canon path with
      | none => ⟨t, [], .error .pathNotFound⟩
      | some host_path =>
        let host_path_str := get_relative_path env.home host_path
        let t' : Trove := ⟨t.config, insertEntry ⟨name, host_path_str, cats⟩ t.entries⟩
        ⟨t', [saveOp env t'], if env.ok (saveOp env t') then .ok () else .error .syncFailure⟩

/-- Trove::remove_entry (main.rs lines 185-190): remove the entry from
the set and save. -/
def Trove.remove_entry (env : Env) (t : Trove) (e : Entry) : CmdOut :=
  let t' : Trove := ⟨t.config, removeEntryFromSet e t.entries⟩
  ⟨t', [saveOp env t'], if env.ok (saveOp env t') then .ok () else .error .syncFailure⟩

/-- Trove::add_command (main.rs lines 192-207): resolve the host path,
compute the store destination, run add_entry (which inserts and
saves), then rename the host path into the store, then create the
symlink at the original host path. -/
def Trove.add_command (env : Env) (t : Trove) (path name : String)
    (categories : Option String) : CmdOut :=
  match env.canon path with
  | none => ⟨t, [], .error .pathNotFound⟩
  | some from_path =>
    let to_path := pathJoin (get_true_path env.home t.config.store_path) name
    let r := Trove.add_entry env t from_path name categories
    match r.result with
    | .error e => ⟨r.trove, r.trace, .error e⟩
    | .ok _ =>
      let rop : FsOp := .rename from_path to_path
      if env.ok rop then
        let sop : FsOp := .symlinkCreate to_path from_path
        if env.ok sop then ⟨r.trove, r.trace ++ [rop, sop], .ok ()⟩
        else ⟨r.trove, r.trace ++ [rop, sop], .error .syncFailure⟩
      else ⟨r.trove, r.trace ++ [rop], .error .syncFailure⟩

/-- The filesystem restore shared by both remove_command branches
(main.rs lines 291-298 and 304-311): remove the symlink at the
resolved host path (failure tolerated with a log line), then rename
the store-resident file back to the host path (failure propagated). -/
def removeRestore (env : Env) (t : Trove) (e : Entry) : CmdOut :=
  let r := Trove.remove_entry env t e
  match r.result with
  | .error err => ⟨r.trove, r.trace, .error err⟩
  | .ok _ =>
    let uop : FsOp := .symlinkRemove (get_true_path env.home e.host_path)
    let from_path := pathJoin (get_true_path env.home t.config.store_path) e.name
    let rop : FsOp := .rename from_path (get_true_path env.home e.host_path)
    if env.ok rop then ⟨r.trove, r.trace ++ [uop, rop], .ok ()⟩
    else ⟨r.trove, r.trace ++ [uop, rop], .error .syncFailure⟩

/-- Trove::remove_command (main.rs lines 286-317): requires exactly one
selector; looks the entry up by name or by (resolved) path; removes it
from the set and saves, then restores the file from the store. -/
def Trove.remove_command (env : Env) (t : Trove) (path : Option String)
    (name : Option String) : CmdOut :=
  match path, name with
  | none, none => ⟨t, [], .error .needCriteria⟩
  | none, some n =>
    match t.find_entry_by_name n with
    | some e => removeRestore env t e
    | none => ⟨t, [], .error .entryNotFound⟩
  | some p, none =>
    match env.canon p with
    | none => ⟨t, [], .error .pathNotFound⟩
    | some abs =>
      match Trove.find_entry_by_path env.home t abs with
      | some e => removeRestore env t e
      | none => ⟨t, [], .error .entryNotFound⟩
  | some _, some _ => ⟨t, [], .error .onlyOneCriteria⟩

/-- The symlink created by deploy for one entry (main.rs lines 214-217,
224-227, 239-243): the target is the raw portable store_path string
with the entry name appended by push_str (no separator, no
get_true_path resolution), the link is created at the resolved host
path. -/
def deployOp (env : Env) (t : Trove) (e : Entry) : FsOp :=
  .symlinkCreate (t.config.store_path ++ e.name) (get_true_path env.home e.host_path)

/-- Trove::deploy_command (main.rs lines 209-256): with no selector,
relink every entry (per-entry failures only logged); with a name,
relink that entry; with a category, relink the matching set; with both
selectors, fail. -/
def Trove.deploy_command (env : Env) (t : Trove) (category name : Option String) : CmdOut :=
  match category, name with
  | none, none => ⟨t, t.entries.map (deployOp env t), .ok ()⟩
  | none, some n =>
    match t.find_entry_by_name n with
    | some entry => ⟨t, [deployOp env t entry], .ok ()⟩
    | none => ⟨t, [], .error .noEntryByName⟩
  | some c, none =>
    match t.find_entry_by_category c with
    | some es => ⟨t, es.map (deployOp env t), .ok ()⟩
    | none => ⟨t, [], .error .noEntriesFound⟩
  | some _, some _ => ⟨t, [], .error .onlyOneCriteria⟩

/-- Trove::pack_command (main.rs lines 258-284): like deploy but
removes the symlink at each selected entry's resolved host path, with
per-entry failures silently tolerated. -/
def Trove.pack_command (env : Env) (t : Trove) (category name : Option String) : CmdOut :=
  match category, name with
  | none, none =>
    ⟨t, t.entries.map (fun e => FsOp.symlinkRemove (get_true_path env.home e.host_path)), .ok ()⟩
  | none, some n =>
    match t.find_entry_by_name n with
    | some entry => ⟨t, [FsOp.symlinkRemove (get_true_path env.home entry.host_path)], .ok ()⟩
    | none => ⟨t, [], .error .noEntryByName⟩
  | some c, none =>
    match t.find_entry_by_category c with
    | some es =>
      ⟨t, es.map (fun e => FsOp.symlinkRemove (get_true_path env.home e.host_path)), .ok ()⟩
    | none => ⟨t, [], .error .noEntriesFound⟩
  | some _, some _ => ⟨t, [], .error .onlyOneCriteria⟩

/-- One add invocation's arguments. -/
structure AddReq where
  path : String
  name : String
  categories : Option String

/-- A sequence of add invocations threaded through the in-memory (and,
when each save succeeds, persisted) Trove. -/
def runAdds (env : Env) (t : Trove) : List AddReq → Trove
  | [] => t
  | r :: rs => runAdds env (Trove.add_command env t r.path r.name r.categories).trove rs

/-- Name uniqueness of the entry set. -/
def NamesUnique (t : Trove) : Prop :=
  t.entries.Pairwise (fun a b => a.name ≠ b.name)

/-! ### Concrete fixtures -/

/-- Environment with no home directory, identity canonicalization, and
every filesystem operation succeeding. -/
def idEnv : Env := ⟨none, fun s => some s, fun _ => true⟩

/-- Environment in which every rename fails and everything else
succeeds. -/
def renameFailEnv : Env := ⟨none, fun s => some s, fun op => match op with
  | .rename _ _ => false
  | _ => true⟩

/-- Environment in which no path resolves. -/
def noCanonEnv : Env := ⟨none, fun _ => none, fun _ => true⟩

/-- A freshly initialized registry. -/
def emptyTrove : Trove := ⟨⟨"/r/trove.conf", "/r/store"⟩, []⟩

/-- A registry tracking one entry. -/
def oneEntryTrove : Trove := ⟨⟨"/r/trove.conf", "/r/store"⟩, [⟨"n", "/p", []⟩]⟩


/-! ### Helper lemmas -/

theorem seqOption_jStr_map (l : List String) :
    seqOption jStr (l.map Json.str) = some l := by
  induction l with
  | nil => rfl
  | cons a rest ih => simp [seqOption, jStr, ih]

theorem entry_roundtrip (e : Entry) : entryFromJson (entryToJson e) = some e := by
  show (match seqOption jStr (e.categories.map Json.str) with
        | some cs => some (⟨e.name, e.host_path, cs⟩ : Entry)
        | none => none) = some e
  rw [seqOption_jStr_map]

theorem entries_roundtrip (l : List Entry) :
    seqOption entryFromJson (l.map entryToJson) = some l := by
  induction l with
  | nil => rfl
  | cons a rest ih => simp [seqOption, entry_roundtrip, ih]

theorem trove_roundtrip (t : Trove) : troveFromJson (troveToJson t) = some t := by
  show (match configFromJson (configToJson t.config),
              seqOption entryFromJson (t.entries.map entryToJson) with
        | some c, some l => some (⟨c, l⟩ : Trove)
        | _, _ => none) = some t
  rw [entries_roundtrip]
  show some ⟨t.config, t.entries⟩ = some t
  rfl

theorem isPrefixOf_self_append (l r : List Char) : l.isPrefixOf (l ++ r) = true := by
  induction l with
  | nil => cases r <;> rfl
  | cons c cs ih => simp [List.isPrefixOf, ih]

theorem containsSub_self_append (pat r : List Char) (h : pat ≠ []) :
    containsSub pat (pat ++ r) = true := by
  cases pat with
  | nil => exact absurd rfl h
  | cons c cs =>
    show (List.isPrefixOf (c :: cs) (c :: cs ++ r) || _) = true
    rw [isPrefixOf_self_append]
    rfl

theorem replaceCharsFuel_congr (pat rep : List Char) :
    ∀ (n m : Nat) (l : List Char), l.length ≤ n → l.length ≤ m →
      replaceCharsFuel pat rep n l = replaceCharsFuel pat rep m l := by
  intro n
  induction n with
  | zero =>
    intro m l hn hm
    have : l = [] := List.eq_nil_of_length_eq_zero (Nat.le_zero.mp hn)
    subst this
    cases m <;> rfl
  | succ n ih =>
    intro m l hn hm
    cases l with
    | nil => cases m <;> rfl
    | cons c cs =>
      cases m with
      | zero => exact absurd hm (by simp)
      | succ m =>
        show (if !pat.isEmpty && pat.isPrefixOf (c :: cs) then
                rep ++ replaceCharsFuel pat rep n ((c :: cs).drop pat.length)
              else c :: replaceCharsFuel pat rep n cs)
           = (if !pat.isEmpty && pat.isPrefixOf (c :: cs) then
                rep ++ replaceCharsFuel pat rep m ((c :: cs).drop pat.length)
              else c :: replaceCharsFuel pat rep m cs)
        by_cases hc : (!pat.isEmpty && pat.isPrefixOf (c :: cs)) = true
        · rw [if_pos hc, if_pos hc]
          have hpat : 1 ≤ pat.length := by
            cases pat with
            | nil => simp at hc
            | cons _ _ => simp
          have hdrop : ((c :: cs).drop pat.length).length ≤ n := by
            rw [List.length_drop]
            simp only [List.length_cons] at hn ⊢
            omega
          have hdrop' : ((c :: cs).drop pat.length).length ≤ m := by
            rw [List.length_drop]
            simp only [List.length_cons] at hm ⊢
            omega
          rw [ih _ _ hdrop hdrop']
        · rw [if_neg hc, if_neg hc]
          have h1 : cs.length ≤ n := by simp only [List.length_cons] at hn; omega
          have h2 : cs.length ≤ m := by simp only [List.length_cons] at hm; omega
          rw [ih _ _ h1 h2]

theorem replaceCharsFuel_of_not_contains (pat rep : List Char) :
    ∀ (n : Nat) (l : List Char), containsSub pat l = false →
      replaceCharsFuel pat rep n l = l := by
  intro n
  induction n with
  | zero => intro l h; cases l <;> rfl
  | succ n ih =>
    intro l h
    cases l with
    | nil => rfl
    | cons c cs =>
      have hsplit : pat.isPrefixOf (c :: cs) = false ∧ containsSub pat cs = false := by
        have : (pat.isPrefixOf (c :: cs) || containsSub pat cs) = false := h
        simpa using this
      show (if !pat.isEmpty && pat.isPrefixOf (c :: cs) then
              rep ++ replaceCharsFuel pat rep n ((c :: cs).drop pat.length)
            else c :: replaceCharsFuel pat rep n cs) = c :: cs
      rw [hsplit.1, ih cs hsplit.2]
      simp

theorem replaceChars_of_not_contains (pat rep l : List Char) (h : containsSub pat l = false) :
    replaceChars pat rep l = l :=
  replaceCharsFuel_of_not_contains pat rep l.length l h

theorem replaceChars_append_self (pat rep r : List Char) (h : pat ≠ []) :
    replaceChars pat rep (pat ++ r) = rep ++ replaceChars pat rep r := by
  cases pat with
  | nil => exact absurd rfl h
  | cons c cs =>
    show replaceCharsFuel (c :: cs) rep (c :: (cs ++ r)).length (c :: (cs ++ r))
       = rep ++ replaceCharsFuel (c :: cs) rep r.length r
    have hlen : (c :: (cs ++ r)).length = (cs ++ r).length + 1 := by simp
    rw [hlen]
    show (if !(c :: cs).isEmpty && (c :: cs).isPrefixOf (c :: (cs ++ r)) then
            rep ++ replaceCharsFuel (c :: cs) rep (cs ++ r).length
              ((c :: (cs ++ r)).drop (c :: cs).length)
          else _) = rep ++ replaceCharsFuel (c :: cs) rep r.length r
    have hpre : (c :: cs).isPrefixOf (c :: cs ++ r) = true := isPrefixOf_self_append _ _
    have hpre' : (c :: cs).isPrefixOf (c :: (cs ++ r)) = true := hpre
    rw [hpre']
    simp only [List.isEmpty, Bool.not_false, Bool.true_and, if_true]
    have hdrop : (c :: (cs ++ r)).drop (c :: cs).length = r := by
      have : (c :: (cs ++ r)) = (c :: cs) ++ r := by simp
      rw [this]
      exact List.drop_left _ _
    rw [hdrop]
    congr 1
    apply replaceCharsFuel_congr
    · simp
    · exact Nat.le_refl _

theorem find_entry_by_name_none (t : Trove) (name : String)
    (h : t.find_entry_by_name name = none) : ∀ e ∈ t.entries, e.name ≠ name := by
  intro e he
  have := List.find?_eq_none.mp h e he
  simpa using this

theorem insertEntry_names_unique (l : List Entry) (e : Entry)
    (hu : l.Pairwise (fun a b => a.name ≠ b.name)) (h : ∀ x ∈ l, x.name ≠ e.name) :
    (insertEntry e l).Pairwise (fun a b => a.name ≠ b.name) := by
  unfold insertEntry
  by_cases hc : l.contains e
  · rw [if_pos hc]; exact hu
  · rw [if_neg hc]
    rw [List.pairwise_append]
    refine ⟨hu, by simp, ?_⟩
    intro a ha b hb
    simp only [List.mem_singleton] at hb
    subst hb
    exact h a ha

theorem add_entry_names_unique (env : Env) (t : Trove) (path name : String)
    (cats : Option String) (hu : NamesUnique t) :
    NamesUnique (Trove.add_entry env t path name cats).trove := by
  unfold Trove.add_entry
  cases hf : t.find_entry_by_name name with
  | some e => exact hu
  | none =>
    cases hp : Trove.find_entry_by_path env.home t path with
    | some e => exact hu
    | none =>
      cases hc : env.canon path with
      | none => exact hu
      | some host =>
        show NamesUnique ⟨t.config, insertEntry ⟨name, _, _⟩ t.entries⟩
        exact insertEntry_names_unique _ _ hu (find_entry_by_name_none t name hf)

theorem add_command_names_unique (env : Env) (t : Trove) (path name : String)
    (cats : Option String) (hu : NamesUnique t) :
    NamesUnique (Trove.add_command env t path name cats).trove := by
  unfold Trove.add_command
  cases hc : env.canon path with
  | none => exact hu
  | some fp =>
    have h1 := add_entry_names_unique env t fp name cats hu
    cases hr : (Trove.add_entry env t fp name cats).result with
    | error e => simpa [hr] using h1
    | ok u =>
      simp only [hr]
      split
      · split
        · exact h1
        · exact h1
      · exact h1

theorem runAdds_names_unique (env : Env) (reqs : List AddReq) :
    ∀ t : Trove, NamesUnique t → NamesUnique (runAdds env t reqs) := by
  induction reqs with
  | nil => intro t hu; exact hu
  | cons r rs ih =>
    intro t hu
    exact ih _ (add_command_names_unique env t r.path r.name r.categories hu)

theorem add_command_dup_name (env : Env) (t : Trove) (path name : String)
    (cats : Option String) (fp : String) (hc : env.canon path = some fp)
    (h : (t.find_entry_by_name name).isSome = true) :
    Trove.add_command env t path name cats = ⟨t, [], .error .duplicateName⟩ := by
  obtain ⟨e, he⟩ := Option.isSome_iff_exists.mp h
  simp only [Trove.add_command, Trove.add_entry, hc, he]

theorem add_command_dup_path (env : Env) (t : Trove) (path name : String)
    (cats : Option String) (fp : String) (hc : env.canon path = some fp)
    (hn : t.find_entry_by_name name = none)
    (h : (Trove.find_entry_by_path env.home t fp).isSome = true) :
    Trove.add_command env t path name cats = ⟨t, [], .error .duplicatePath⟩ := by
  obtain ⟨e, he⟩ := Option.isSome_iff_exists.mp h
  simp only [Trove.add_command, Trove.add_entry, hc, hn, he]


/-! ### Claim theorems -/

/-- C1 (amended): over every sequence of add invocations the Entry
Store never contains two entries with equal name; an add whose name
duplicates an existing entry's name fails with the duplicate-name
error, and an add whose resolved input path equals an existing entry's
store-resident location (resolved store_path joined with its name,
which is what Trove::find_entry_by_path compares) fails with the
duplicate-path error, in both cases leaving the entry set unchanged
and attempting no filesystem operation.  The original claim's further
assertion that resolved host_paths are always pairwise distinct does
not hold of the code: the duplicate-path check never inspects the
host_path field, so after an add whose rename step failed (the entry
having already been inserted and persisted) the same host path can be
added again under a new name; see the counterexample. -/
theorem add_uniqueness (env : Env) (t0 t : Trove) (reqs : List AddReq)
    (path name : String) (cats : Option String) (fp : String)
    (hu : NamesUnique t0) (hc : env.canon path = some fp) :
    NamesUnique (runAdds env t0 reqs)
    ∧ ((t.find_entry_by_name name).isSome = true →
        Trove.add_command env t path name cats = ⟨t, [], .error .duplicateName⟩)
    ∧ (t.find_entry_by_name name = none →
        (Trove.find_entry_by_path env.home t fp).isSome = true →
        Trove.add_command env t path name cats = ⟨t, [], .error .duplicatePath⟩) :=
  ⟨runAdds_names_unique env reqs t0 hu,
   fun h => add_command_dup_name env t path name cats fp hc h,
   fun hn h => add_command_dup_path env t path name cats fp hc hn h⟩

/-- C1 witness: the amended theorem applied at a one-entry registry. -/
theorem add_uniqueness_witness :
    NamesUnique emptyTrove
    ∧ idEnv.canon "/q" = some "/q"
    ∧ (NamesUnique (runAdds idEnv emptyTrove [⟨"/p", "n", none⟩])
       ∧ ((oneEntryTrove.find_entry_by_name "n").isSome = true →
           Trove.add_command idEnv oneEntryTrove "/q" "n" none =
             ⟨oneEntryTrove, [], .error .duplicateName⟩)
       ∧ (oneEntryTrove.find_entry_by_name "n" = none →
           (Trove.find_entry_by_path idEnv.home oneEntryTrove "/q").isSome = true →
           Trove.add_command idEnv oneEntryTrove "/q" "n" none =
             ⟨oneEntryTrove, [], .error .duplicatePath⟩)) :=
  ⟨List.Pairwise.nil, rfl,
   add_uniqueness idEnv emptyTrove oneEntryTrove [⟨"/p", "n", none⟩] "/q" "n" none "/q"
     List.Pairwise.nil rfl⟩

/-- C1 counterexample: starting from an empty registry, an add of
"/p" as "a" whose rename into the store fails still inserts and
persists the entry; a second add of the same path "/p" as "b" then
succeeds instead of failing with the duplicate-path error, leaving two
distinct entries whose resolved host_path values are equal. -/
theorem add_duplicate_host_path_cex :
    (Trove.add_command renameFailEnv emptyTrove "/p" "a" none).result = .error .syncFailure
    ∧ (Trove.add_command idEnv (Trove.add_command renameFailEnv emptyTrove "/p" "a" none).trove
        "/p" "b" none).result = .ok ()
    ∧ (Trove.add_command idEnv (Trove.add_command renameFailEnv emptyTrove "/p" "a" none).trove
        "/p" "b" none).trove.entries = [⟨"a", "/p", []⟩, ⟨"b", "/p", []⟩]
    ∧ (⟨"a", "/p", []⟩ : Entry) ≠ (⟨"b", "/p", []⟩ : Entry)
    ∧ get_true_path idEnv.home (Entry.host_path ⟨"a", "/p", []⟩)
        = get_true_path idEnv.home (Entry.host_path ⟨"b", "/p", []⟩) :=
  ⟨rfl, rfl, rfl, by decide, rfl⟩

/-- C5: whenever add fails its uniqueness validation (duplicate name
or duplicate path), the error is returned with an empty trace of
filesystem operations - no rename, no symlink creation, and no
registry-file write - and the in-memory entry set is returned
unchanged. -/
theorem add_validation_precedes_effects (env : Env) (t : Trove) (path name : String)
    (cats : Option String) (fp : String) (hc : env.canon path = some fp) :
    ((t.find_entry_by_name name).isSome = true →
      Trove.add_command env t path name cats = ⟨t, [], .error .duplicateName⟩)
    ∧ (t.find_entry_by_name name = none →
       (Trove.find_entry_by_path env.home t fp).isSome = true →
       Trove.add_command env t path name cats = ⟨t, [], .error .duplicatePath⟩) :=
  ⟨fun h => add_command_dup_name env t path name cats fp hc h,
   fun hn h => add_command_dup_path env t path name cats fp hc hn h⟩

/-- C5 witness: both validation failures evaluated on a one-entry
registry. -/
theorem add_validation_precedes_effects_witness :
    Trove.add_command idEnv oneEntryTrove "/q" "n" none =
      ⟨oneEntryTrove, [], .error .duplicateName⟩
    ∧ Trove.add_command idEnv oneEntryTrove "/r/store/n" "b" none =
      ⟨oneEntryTrove, [], .error .duplicatePath⟩ :=
  ⟨(add_validation_precedes_effects idEnv oneEntryTrove "/q" "n" none "/q" rfl).1 rfl,
   (add_validation_precedes_effects idEnv oneEntryTrove "/r/store/n" "b" none "/r/store/n"
     rfl).2 rfl rfl⟩

/-- C3 counterexample: on a successful add from an empty registry the
first attempted operation is the registry-file write whose content
already contains the new entry, and the rename into the store comes
only second - refuting the claim that the registry is not persisted
with the new entry before the rename has happened. -/
theorem add_persists_before_rename_cex :
    (Trove.add_command idEnv emptyTrove "/p" "n" none).trace =
      [.write "/r/trove.conf" (troveToJson oneEntryTrove),
       .rename "/p" "/r/store/n",
       .symlinkCreate "/r/store/n" "/p"]
    ∧ (⟨"n", "/p", []⟩ : Entry) ∈ oneEntryTrove.entries
    ∧ (Trove.add_command idEnv emptyTrove "/p" "n" none).trace.head? =
        some (.write "/r/trove.conf" (troveToJson oneEntryTrove)) :=
  ⟨rfl, by simp [oneEntryTrove], rfl⟩

/-- C3 (amended): after its uniqueness validation succeeds, add
performs its steps in this order: it inserts the new Entry and
persists the registry first, then renames the host path into the
store, and then creates the symlink at the original host path; in
particular the registry is persisted with the new entry before the
rename into the store has happened (the reverse of the claimed
order), while the rename does precede the symlink creation. -/
theorem add_effect_order (env : Env) (t : Trove) (path name : String) (cats : Option String)
    (fp hp : String)
    (hc : env.canon path = some fp)
    (hn : t.find_entry_by_name name = none)
    (hpth : Trove.find_entry_by_path env.home t fp = none)
    (hc2 : env.canon fp = some hp)
    (hok : ∀ op, env.ok op = true) :
    Trove.add_command env t path name cats =
      ⟨⟨t.config, insertEntry ⟨name, get_relative_path env.home hp, splitCategories cats⟩
          t.entries⟩,
       [saveOp env ⟨t.config,
          insertEntry ⟨name, get_relative_path env.home hp, splitCategories cats⟩ t.entries⟩,
        .rename fp (pathJoin (get_true_path env.home t.config.store_path) name),
        .symlinkCreate (pathJoin (get_true_path env.home t.config.store_path) name) fp],
       .ok ()⟩ := by
  simp only [Trove.add_command, Trove.add_entry, hc, hn, hpth, hc2, hok, if_true]
  rfl

/-- C3 witness: the amended effect order evaluated on an add into an
empty registry. -/
theorem add_effect_order_witness :
    Trove.add_command idEnv emptyTrove "/p" "n" none =
      ⟨⟨emptyTrove.config,
        insertEntry ⟨"n", get_relative_path idEnv.home "/p", splitCategories none⟩
          emptyTrove.entries⟩,
       [saveOp idEnv ⟨emptyTrove.config,
          insertEntry ⟨"n", get_relative_path idEnv.home "/p", splitCategories none⟩
            emptyTrove.entries⟩,
        .rename "/p" (pathJoin (get_true_path idEnv.home emptyTrove.config.store_path) "n"),
        .symlinkCreate (pathJoin (get_true_path idEnv.home emptyTrove.config.store_path) "n")
          "/p"],
       .ok ()⟩ :=
  add_effect_order idEnv emptyTrove "/p" "n" none "/p" "/p" rfl rfl rfl rfl (fun _ => rfl)

theorem removeRestore_eq_saveFail (env : Env) (t : Trove) (e : Entry)
    (hok : env.ok (saveOp env ⟨t.config, removeEntryFromSet e t.entries⟩) = false) :
    removeRestore env t e =
      ⟨⟨t.config, removeEntryFromSet e t.entries⟩,
       [saveOp env ⟨t.config, removeEntryFromSet e t.entries⟩], .error .syncFailure⟩ := by
  simp only [removeRestore, Trove.remove_entry, hok, Bool.false_eq_true, if_false]

theorem removeRestore_eq_renameFail (env : Env) (t : Trove) (e : Entry)
    (hok : env.ok (saveOp env ⟨t.config, removeEntryFromSet e t.entries⟩) = true)
    (hrop : env.ok (.rename (pathJoin (get_true_path env.home t.config.store_path) e.name)
      (get_true_path env.home e.host_path)) = false) :
    removeRestore env t e =
      ⟨⟨t.config, removeEntryFromSet e t.entries⟩,
       [saveOp env ⟨t.config, removeEntryFromSet e t.entries⟩,
        .symlinkRemove (get_true_path env.home e.host_path),
        .rename (pathJoin (get_true_path env.home t.config.store_path) e.name)
          (get_true_path env.home e.host_path)],
       .error .syncFailure⟩ := by
  simp only [removeRestore, Trove.remove_entry, hok, hrop, if_true, Bool.false_eq_true, if_false]
  rfl

theorem removeRestore_eq_ok (env : Env) (t : Trove) (e : Entry)
    (hok : env.ok (saveOp env ⟨t.config, removeEntryFromSet e t.entries⟩) = true)
    (hrop : env.ok (.rename (pathJoin (get_true_path env.home t.config.store_path) e.name)
      (get_true_path env.home e.host_path)) = true) :
    removeRestore env t e =
      ⟨⟨t.config, removeEntryFromSet e t.entries⟩,
       [saveOp env ⟨t.config, removeEntryFromSet e t.entries⟩,
        .symlinkRemove (get_true_path env.home e.host_path),
        .rename (pathJoin (get_true_path env.home t.config.store_path) e.name)
          (get_true_path env.home e.host_path)],
       .ok ()⟩ := by
  simp only [removeRestore, Trove.remove_entry, hok, hrop, if_true]
  rfl

theorem removeRestore_spec (env : Env) (t : Trove) (e : Entry) :
    (removeRestore env t e).trove = ⟨t.config, removeEntryFromSet e t.entries⟩
    ∧ e ∉ (removeRestore env t e).trove.entries
    ∧ (removeRestore env t e).trace.head? =
        some (saveOp env ⟨t.config, removeEntryFromSet e t.entries⟩)
    ∧ (env.ok (saveOp env ⟨t.config, removeEntryFromSet e t.entries⟩) = true →
        (removeRestore env t e).trace =
          [saveOp env ⟨t.config, removeEntryFromSet e t.entries⟩,
           .symlinkRemove (get_true_path env.home e.host_path),
           .rename (pathJoin (get_true_path env.home t.config.store_path) e.name)
             (get_true_path env.home e.host_path)]) := by
  have hmem : e ∉ removeEntryFromSet e t.entries := by
    simp [removeEntryFromSet, List.mem_filter]
  rcases Bool.eq_false_or_eq_true
      (env.ok (saveOp env ⟨t.config, removeEntryFromSet e t.entries⟩)) with hok | hok
  · rcases Bool.eq_false_or_eq_true
        (env.ok (.rename (pathJoin (get_true_path env.home t.config.store_path) e.name)
          (get_true_path env.home e.host_path))) with hrop | hrop
    · rw [removeRestore_eq_ok env t e hok hrop]
      exact ⟨rfl, hmem, rfl, fun _ => rfl⟩
    · rw [removeRestore_eq_renameFail env t e hok hrop]
      exact ⟨rfl, hmem, rfl, fun _ => rfl⟩
  · rw [removeRestore_eq_saveFail env t e hok]
    exact ⟨rfl, hmem, rfl, fun h => absurd (hok.symm.trans h) Bool.false_ne_true⟩

/-- C4: for every successful lookup in remove (by name or by path),
the entry is removed from the Entry Store and the registry write is
the first attempted operation, before any filesystem restore step; the
restore itself first removes the symlink at the resolved host path
(tolerating failure) and only then renames the store-resident file
back to the host path; and the persisted registry content no longer
contains the entry, whatever the outcome of the rename. -/
theorem remove_persists_before_restore (env : Env) (t : Trove) (n p abs : String)
    (e e2 : Entry)
    (h1 : t.find_entry_by_name n = some e)
    (h2 : env.canon p = some abs)
    (h3 : Trove.find_entry_by_path env.home t abs = some e2) :
    ((Trove.remove_command env t none (some n)).trove =
        ⟨t.config, removeEntryFromSet e t.entries⟩
     ∧ e ∉ (Trove.remove_command env t none (some n)).trove.entries
     ∧ (Trove.remove_command env t none (some n)).trace.head? =
         some (saveOp env ⟨t.config, removeEntryFromSet e t.entries⟩)
     ∧ (env.ok (saveOp env ⟨t.config, removeEntryFromSet e t.entries⟩) = true →
         (Trove.remove_command env t none (some n)).trace =
           [saveOp env ⟨t.config, removeEntryFromSet e t.entries⟩,
            .symlinkRemove (get_true_path env.home e.host_path),
            .rename (pathJoin (get_true_path env.home t.config.store_path) e.name)
              (get_true_path env.home e.host_path)]))
    ∧ ((Trove.remove_command env t (some p) none).trove =
        ⟨t.config, removeEntryFromSet e2 t.entries⟩
     ∧ e2 ∉ (Trove.remove_command env t (some p) none).trove.entries
     ∧ (Trove.remove_command env t (some p) none).trace.head? =
         some (saveOp env ⟨t.config, removeEntryFromSet e2 t.entries⟩)
     ∧ (env.ok (saveOp env ⟨t.config, removeEntryFromSet e2 t.entries⟩) = true →
         (Trove.remove_command env t (some p) none).trace =
           [saveOp env ⟨t.config, removeEntryFromSet e2 t.entries⟩,
            .symlinkRemove (get_true_path env.home e2.host_path),
            .rename (pathJoin (get_true_path env.home t.config.store_path) e2.name)
              (get_true_path env.home e2.host_path)])) := by
  have hr1 : Trove.remove_command env t none (some n) = removeRestore env t e := by
    simp only [Trove.remove_command, h1]
  have hr2 : Trove.remove_command env t (some p) none = removeRestore env t e2 := by
    simp only [Trove.remove_command, h2, h3]
  rw [hr1, hr2]
  exact ⟨removeRestore_spec env t e, removeRestore_spec env t e2⟩

/-- C4 witness: the remove trace and the removed membership evaluated
on a one-entry registry. -/
theorem remove_persists_before_restore_witness :
    (Trove.remove_command idEnv oneEntryTrove none (some "n")).trace =
      [saveOp idEnv ⟨oneEntryTrove.config, removeEntryFromSet ⟨"n", "/p", []⟩
         oneEntryTrove.entries⟩,
       .symlinkRemove (get_true_path idEnv.home "/p"),
       .rename (pathJoin (get_true_path idEnv.home oneEntryTrove.config.store_path) "n")
         (get_true_path idEnv.home "/p")]
    ∧ (⟨"n", "/p", []⟩ : Entry) ∉
        (Trove.remove_command idEnv oneEntryTrove none (some "n")).trove.entries :=
  ⟨(remove_persists_before_restore idEnv oneEntryTrove "n" "/r/store/n" "/r/store/n"
      ⟨"n", "/p", []⟩ ⟨"n", "/p", []⟩ rfl rfl rfl).1.2.2.2 rfl,
   (remove_persists_before_restore idEnv oneEntryTrove "n" "/r/store/n" "/r/store/n"
      ⟨"n", "/p", []⟩ ⟨"n", "/p", []⟩ rfl rfl rfl).1.2.1⟩

/-- C2 (code bug, evaluated at the failing input): deploy creates the
symlink at the entry's resolved host path, but its target is the raw
portable store_path string with the entry name appended without a path
separator and without resolving $HOME - "$HOME/t/storevimrc" - which
differs from the store-resident location the claim (and the rest of
the code, e.g. add_command and find_entry_by_path) uses, namely the
resolved store directory joined with the entry name. -/
theorem deploy_symlink_target_unresolved :
    (Trove.deploy_command ⟨some "/home/u", fun s => some s, fun _ => true⟩
        ⟨⟨"$HOME/t/trove.conf", "$HOME/t/store"⟩, [⟨"vimrc", "$HOME/.vimrc", []⟩]⟩ none
        (some "vimrc")).trace
      = [.symlinkCreate "$HOME/t/storevimrc" "/home/u/.vimrc"]
    ∧ "$HOME/t/storevimrc"
        ≠ pathJoin (get_true_path (some "/home/u") "$HOME/t/store") "vimrc" :=
  ⟨rfl, by decide⟩

/-- C6 (code bug, evaluated at the failing input): with a locatable
registry file whose contents fail to parse, load crashes the process
through the expect panic "JSON was misformatted." instead of
returning a CorruptRegistry error result to its caller; the claim's
second half holds: when no registry can be located, load returns the
NotInitialized error. -/
theorem load_malformed_crashes :
    Trove.load ⟨none, fun s => if s = "/conf" then some "/conf" else none, fun _ => true⟩
      (fun s => if s = "/conf" then some (.malformed "oops") else none) (some "/conf")
      = .crashed "JSON was misformatted."
    ∧ Trove.load ⟨none, fun _ => none, fun _ => true⟩ (fun _ => none) none
      = .ret (.error .notInitialized) :=
  ⟨rfl, rfl⟩

/-- C7 counterexample: on a path in which the home directory occurs
only in a non-leading position, get_relative_path substitutes that
occurrence instead of leaving the path unchanged. -/
theorem get_relative_path_nonleading_cex :
    get_relative_path (some "/home/u") "/data/home/u/x" = "/data$HOME/x"
    ∧ "/data$HOME/x" ≠ "/data/home/u/x" :=
  ⟨rfl, by decide⟩

/-- C7 (amended): toPortable (get_relative_path) substitutes every
occurrence of the home-directory string, leading or not: when the home
directory cannot be determined the path is returned unchanged; a path
not containing the home directory is returned unchanged; and a path
starting with the home directory has its leading occurrence and every
later occurrence replaced by the placeholder. -/
theorem get_relative_path_replaces_every_occurrence (clean rest p : String)
    (hne : clean.data ≠ []) :
    get_relative_path none p = p
    ∧ (containsStr p clean = false → get_relative_path (some clean) p = p)
    ∧ get_relative_path (some clean) ⟨clean.data ++ rest.data⟩
        = ⟨"$HOME".data ++ replaceChars clean.data "$HOME".data rest.data⟩ := by
  refine ⟨rfl, ?_, ?_⟩
  · intro h
    show (if containsStr p clean = true then replaceStr p clean "$HOME" else p) = p
    rw [h]
    simp
  · show (if containsStr ⟨clean.data ++ rest.data⟩ clean = true then
            replaceStr ⟨clean.data ++ rest.data⟩ clean "$HOME"
          else (⟨clean.data ++ rest.data⟩ : String))
        = (⟨"$HOME".data ++ replaceChars clean.data "$HOME".data rest.data⟩ : String)
    have hcon : containsStr ⟨clean.data ++ rest.data⟩ clean = true :=
      containsSub_self_append clean.data rest.data hne
    rw [hcon]
    simp only [if_true]
    exact congrArg String.mk (replaceChars_append_self clean.data "$HOME".data rest.data hne)

/-- C7 witness: the amended theorem applied to the home directory
"/h" and a remainder that contains a second occurrence. -/
theorem get_relative_path_replaces_every_occurrence_witness :
    ("/h" : String).data ≠ []
    ∧ (get_relative_path none "/x" = "/x"
       ∧ (containsStr "/x" "/h" = false → get_relative_path (some "/h") "/x" = "/x")
       ∧ get_relative_path (some "/h") ⟨("/h" : String).data ++ ("/y/h" : String).data⟩
           = ⟨("$HOME" : String).data ++
               replaceChars ("/h" : String).data ("$HOME" : String).data ("/y/h" : String).data⟩) :=
  ⟨by decide, get_relative_path_replaces_every_occurrence "/h" "/y/h" "/x" (by decide)⟩

/-- C8: for every Trove value, performing save and then load from the
same registry file yields exactly the original Trove - the identical
entry set and the identical config, the portable-path encoding written
by save being read back unchanged by load. -/
theorem save_load_roundtrip (env : Env) (files : String → Option RawFile) (t : Trove)
    (conf : String) (h : env.canon conf = some (get_true_path env.home t.config.path)) :
    Trove.load env (applyWrites files (Trove.save env t).1) (some conf) = .ret (.ok t) := by
  have hfile : applyWrites files (Trove.save env t).1 (get_true_path env.home t.config.path)
      = some (.json (troveToJson t)) := by
    simp [Trove.save, applyWrites, fsAfterWrite, saveOp]
  unfold Trove.load
  simp only [h, hfile, json_from_file, trove_roundtrip]

/-- C8 witness: the round trip evaluated on a one-entry registry. -/
theorem save_load_roundtrip_witness :
    idEnv.canon "/r/trove.conf" = some (get_true_path idEnv.home oneEntryTrove.config.path)
    ∧ Trove.load idEnv (applyWrites (fun _ => none) (Trove.save idEnv oneEntryTrove).1)
        (some "/r/trove.conf") = .ret (.ok oneEntryTrove) :=
  ⟨rfl, save_load_roundtrip idEnv (fun _ => none) oneEntryTrove "/r/trove.conf" rfl⟩

/-- C9 counterexample: with exactly one selector supplied (a path)
matching no entry because it cannot be resolved, remove fails with the
path-not-found error rather than the entry-not-found error the claim
requires. -/
theorem remove_unresolvable_path_cex :
    (Trove.remove_command noCanonEnv emptyTrove (some "/gone") none).result =
      .error .pathNotFound
    ∧ TroveErr.pathNotFound ≠ TroveErr.entryNotFound :=
  ⟨rfl, by decide⟩

/-- C9 (amended): remove fails with the ambiguous-selector errors
when neither or both selectors are supplied, and with the
entry-not-found error when exactly one selector is supplied, the path
selector (if used) resolves, and no entry matches; a path selector
that cannot be resolved fails with the path-not-found error instead;
in every such failure case the entry set is unchanged and no
filesystem operation is attempted. -/
theorem remove_selector_errors (env : Env) (t : Trove) (p n abs : String) :
    Trove.remove_command env t none none = ⟨t, [], .error .needCriteria⟩
    ∧ Trove.remove_command env t (some p) (some n) = ⟨t, [], .error .onlyOneCriteria⟩
    ∧ (t.find_entry_by_name n = none →
        Trove.remove_command env t none (some n) = ⟨t, [], .error .entryNotFound⟩)
    ∧ (env.canon p = some abs → Trove.find_entry_by_path env.home t abs = none →
        Trove.remove_command env t (some p) none = ⟨t, [], .error .entryNotFound⟩)
    ∧ (env.canon p = none →
        Trove.remove_command env t (some p) none = ⟨t, [], .error .pathNotFound⟩) := by
  refine ⟨rfl, rfl, ?_, ?_, ?_⟩
  · intro h
    simp only [Trove.remove_command, h]
  · intro h1 h2
    simp only [Trove.remove_command, h1, h2]
  · intro h
    simp only [Trove.remove_command, h]

/-- C9 witness: all five failure shapes evaluated on a one-entry
registry. -/
theorem remove_selector_errors_witness :
    Trove.remove_command idEnv oneEntryTrove none none =
      ⟨oneEntryTrove, [], .error .needCriteria⟩
    ∧ Trove.remove_command idEnv oneEntryTrove (some "/q") (some "x") =
      ⟨oneEntryTrove, [], .error .onlyOneCriteria⟩
    ∧ Trove.remove_command idEnv oneEntryTrove none (some "x") =
      ⟨oneEntryTrove, [], .error .entryNotFound⟩
    ∧ Trove.remove_command idEnv oneEntryTrove (some "/q") none =
      ⟨oneEntryTrove, [], .error .entryNotFound⟩
    ∧ Trove.remove_command noCanonEnv oneEntryTrove (some "/q") none =
      ⟨oneEntryTrove, [], .error .pathNotFound⟩ :=
  ⟨(remove_selector_errors idEnv oneEntryTrove "/q" "x" "/q").1,
   (remove_selector_errors idEnv oneEntryTrove "/q" "x" "/q").2.1,
   (remove_selector_errors idEnv oneEntryTrove "/q" "x" "/q").2.2.1 rfl,
   (remove_selector_errors idEnv oneEntryTrove "/q" "x" "/q").2.2.2.1 rfl rfl,
   (remove_selector_errors noCanonEnv oneEntryTrove "/q" "x" "/q").2.2.2.2 rfl⟩

/-- C10: for every selector combination and every pattern of
per-entry symlink success or failure, deploy and pack return the Trove
aggregate unchanged (entry set and config identical) and their traces
contain no registry-file write. -/
theorem deploy_pack_frame (env : Env) (t : Trove) (c n : Option String) :
    (Trove.deploy_command env t c n).trove = t
    ∧ ((Trove.deploy_command env t c n).trace.all fun op => !op.isWrite) = true
    ∧ (Trove.pack_command env t c n).trove = t
    ∧ ((Trove.pack_command env t c n).trace.all fun op => !op.isWrite) = true := by
  unfold Trove.deploy_command Trove.pack_command
  cases c with
  | none =>
    cases n with
    | none =>
      refine ⟨?_, ?_, ?_, ?_⟩ <;>
        simp [List.all_eq_true, List.mem_map, deployOp, FsOp.isWrite]
    | some s =>
      cases h : t.find_entry_by_name s <;>
        (refine ⟨?_, ?_, ?_, ?_⟩ <;>
          simp [h, List.all_eq_true, List.mem_map, deployOp, FsOp.isWrite])
  | some cc =>
    cases n with
    | none =>
      cases h : t.find_entry_by_category cc <;>
        (refine ⟨?_, ?_, ?_, ?_⟩ <;>
          simp [h, List.all_eq_true, List.mem_map, deployOp, FsOp.isWrite])
    | some s =>
      refine ⟨?_, ?_, ?_, ?_⟩ <;> simp
